import Mathlib

/-!
Verification of `script_writeback.py`.

A shallow embedding of the ABAP-cleaner writeback script in Lean 4, together
with theorems settling the frozen claims about it.  Pure helper functions of
the script are translated directly; the networked `main` loop is modelled as
a deterministic function of the command-line arguments and of a `World`
record that supplies the responses of the remote server and of the local
cleaner subprocess, producing the trace of network requests, the local files
written, the failure-log entries and the exit outcome.
-/

set_option autoImplicit false
set_option maxRecDepth 4000

namespace ScriptWriteback

/-! ## String helpers -/

/-- Strip matching characters from the end of a list (Python `str.rstrip`). -/
def stripEnd (p : Char → Bool) (l : List Char) : List Char :=
  (l.reverse.dropWhile p).reverse

/-- Strip matching characters from both ends (Python `str.strip(chars)`). -/
def pyStripBoth (p : Char → Bool) (l : List Char) : List Char :=
  stripEnd p (l.dropWhile p)

/-- ASCII whitespace, the relevant subset of what Python `str.strip()` and the
regex class matched by the script strip (the claims never exercise non-ASCII
whitespace). -/
def isPyWs (c : Char) : Bool :=
  (c == ' ') || (c == '\t') || (c == '\n') || (c == '\r') || (c == '\x0b') || (c == '\x0c')

/-- Python truthiness of an optional string: `None` and `""` are falsy. -/
def pyTruthy (o : Option String) : Bool :=
  match o with
  | some s => !s.isEmpty
  | none => false

/-! ## `safe_filename` (source line 30) -/

/-- The character class of the regex in `safe_filename`:
`[<>:"/\\|?*\x00-\x1F]`. -/
def illegalFnameChar (c : Char) : Bool :=
  (['<', '>', ':', '"', '/', '\\', '|', '?', '*'].contains c) || c.toNat ≤ 0x1F

/-- Characters stripped by `.strip(" .")` in `safe_filename`. -/
def spaceDotSet (c : Char) : Bool :=
  (c == ' ') || (c == '.')

/-- The regex substitution followed by `.strip(" .")`.  Note that Python
`str.strip` removes from *both* ends. -/
def sanitizedCore (s : String) : List Char :=
  pyStripBoth spaceDotSet
    (s.toList.map (fun c => if illegalFnameChar c then ('_') else c))

/-- Model of `safe_filename`:
`re.sub(r'[<>:"/\\|?*\x00-\x1F]', "_", s).strip(" .") or "unnamed"`. -/
def safe_filename (s : String) : String :=
  if (sanitizedCore s).isEmpty then ("unnamed") else String.mk (sanitizedCore s)

/-! ### Lemmas about `safe_filename` -/

theorem mem_stripEnd {p : Char → Bool} {l : List Char} {c : Char}
    (h : c ∈ stripEnd p l) : c ∈ l := by
  unfold stripEnd at h
  rw [List.mem_reverse] at h
  have := (List.dropWhile_sublist (l := l.reverse) (p := p)).subset h
  rwa [List.mem_reverse] at this

theorem mem_pyStripBoth {p : Char → Bool} {l : List Char} {c : Char}
    (h : c ∈ pyStripBoth p l) : c ∈ l := by
  unfold pyStripBoth at h
  exact (List.dropWhile_sublist (l := l) (p := p)).subset (mem_stripEnd h)

/-! ## URL parsing: the subset of `urllib.parse` the script exercises -/

/-- Split a list at the first occurrence of `c`: the part before, and the
part after (separator removed) when present. -/
def splitOnce (c : Char) : List Char → List Char × Option (List Char)
  | [] => ([], none)
  | x :: r =>
    if x == c then ([], some r)
    else
      let (a, b) := splitOnce c r
      (x :: a, b)

/-- Split on every occurrence of `c` (Python `str.split(sep)`). -/
def splitAll (c : Char) : List Char → List (List Char)
  | [] => [[]]
  | x :: r =>
    if x == c then [] :: splitAll c r
    else
      match splitAll c r with
      | [] => [[x]]
      | a :: rest => (x :: a) :: rest

/-- Characters allowed in a URL scheme after the initial letter. -/
def isSchemeChar (c : Char) : Bool :=
  c.isAlpha || c.isDigit || (c == '+') || (c == '-') || (c == '.')

structure UrlParts where
  scheme : String
  netloc : String
  path : String
  query : String
  fragment : String
deriving DecidableEq

/-- Model of `urllib.parse.urlsplit`, restricted to the features the script uses:
scheme detection (a nonempty candidate before the first ':', starting with
an ASCII letter and made of scheme characters, lowercased), `//netloc`
(delimited by '/', '?' or '#'), then the fragment at the first '#' and the
query at the first '?'.  The `params` (';') component of `urlparse` is not
modelled: no claim input contains ';'. -/
def urlsplitS (s : String) : UrlParts :=
  let l := s.toList
  let (scheme, url1) :=
    match splitOnce ':' l with
    | (cand, some r) =>
      match cand with
      | [] => ([], l)
      | c0 :: _ =>
        if c0.isAlpha && cand.all isSchemeChar then (cand.map Char.toLower, r)
        else ([], l)
    | (_, none) => ([], l)
  let (netloc, url2) :=
    match url1 with
    | '/' :: '/' :: r =>
      let n := r.takeWhile (fun c => !(c == '/' || c == '?' || c == '#'))
      (n, r.drop n.length)
    | _ => ([], url1)
  let (url3, fragOpt) := splitOnce '#' url2
  let (path, queryOpt) := splitOnce '?' url3
  ⟨String.mk scheme, String.mk netloc, String.mk path,
   String.mk (queryOpt.getD []), String.mk (fragOpt.getD [])⟩

/-- Model of `urllib.parse.urlunsplit` (equivalently `urlunparse` with empty params). -/
def urlunsplitS (u : UrlParts) : String :=
  let p := u.path.toList
  let u1 :=
    if !u.netloc.isEmpty || p.take 2 = ['/', '/'] then
      ['/', '/'] ++ u.netloc.toList ++
        (match p with
         | [] => []
         | c :: _ => if c == '/' then p else '/' :: p)
    else p
  let u2 := if !u.scheme.isEmpty then u.scheme.toList ++ ':' :: u1 else u1
  let u3 := if !u.query.isEmpty then u2 ++ '?' :: u.query.toList else u2
  let u4 := if !u.fragment.isEmpty then u3 ++ '#' :: u.fragment.toList else u3
  String.mk u4

/-- Model of `parse_qsl(query, keep_blank_values=True)`: split on '&', drop empty
chunks, split each chunk at its first '='; a chunk without '=' keeps a blank
value.  Percent- and plus-decoding are omitted: every query value the script
builds or the claims exercise consists of unreserved characters. -/
def parse_qslS (q : String) : List (String × String) :=
  (splitAll '&' q.toList).filterMap (fun chunk =>
    match chunk with
    | [] => none
    | _ =>
      match splitOnce '=' chunk with
      | (k, some v) => some (String.mk k, String.mk v)
      | (k, none) => some (String.mk k, ("")))

/-- Insertion into a Python `dict` viewed as an ordered association list: a
duplicate key overwrites the value in place, a new key is appended. -/
def dictInsert (m : List (String × String)) (k v : String) : List (String × String) :=
  if m.any (fun p => p.1 == k) then
    m.map (fun p => if p.1 == k then (k, v) else p)
  else m ++ [(k, v)]

/-- Model of `dict(pairs)` preserving first-insertion order. -/
def pyDict (ps : List (String × String)) : List (String × String) :=
  ps.foldl (fun m p => dictInsert m p.1 p.2) []

/-- Model of `urlencode(q, doseq=True)` for string values; quoting omitted (all the
values the script passes are unreserved). -/
def urlencodeS (ps : List (String × String)) : String :=
  String.intercalate ("&") (ps.map (fun p => p.1 ++ ("=") ++ p.2))

/-- Model of `add_query_param` (source lines 144-148). -/
def add_query_param (url key value : String) : String :=
  let u := urlsplitS url
  urlunsplitS
    { u with query := urlencodeS (dictInsert (pyDict (parse_qslS u.query)) key value) }

/-- Model of `is_absolute_url` (source lines 137-142): scheme and netloc both
nonempty.  (`urlparse` never raises on the inputs modelled here, so the
`except` branch is dead.) -/
def is_absolute_url (s : String) : Bool :=
  let u := urlsplitS s
  !u.scheme.isEmpty && !u.netloc.isEmpty

/-- Everything up to and including the last '/' of a path (the directory a
relative reference is resolved against). -/
def keepThroughLastSlash (l : List Char) : List Char :=
  (l.reverse.dropWhile (fun c => c != '/')).reverse

/-- Model of `urllib.parse.urljoin`, restricted to the cases the script reaches: it
only joins a base ending in '/' with a locator that failed `is_absolute_url`
and had its leading '/' stripped.  Dot-segment resolution and the
scheme-specific special cases of `urljoin` are omitted: no claim input
contains '.' or '..' segments or a scheme-qualified relative reference. -/
def pyUrljoin (base rel : String) : String :=
  if rel.isEmpty then base
  else
    let r := urlsplitS rel
    if !r.scheme.isEmpty && !r.netloc.isEmpty then rel
    else
      let b := urlsplitS base
      if !r.netloc.isEmpty then
        urlunsplitS { scheme := b.scheme, netloc := r.netloc, path := r.path,
                      query := r.query, fragment := r.fragment }
      else
        match r.path.toList with
        | '/' :: _ =>
          urlunsplitS { scheme := b.scheme, netloc := b.netloc, path := r.path,
                        query := r.query, fragment := r.fragment }
        | rp =>
          let bdir := keepThroughLastSlash b.path.toList
          urlunsplitS { scheme := b.scheme, netloc := b.netloc,
                        path := String.mk (bdir ++ rp),
                        query := r.query, fragment := r.fragment }

/-! ## `label_from_url` (source lines 151-188) -/

/-- Computation of `parts` in `label_from_url`: the nonempty segments of the stripped path. -/
def pathParts (path : String) : List String :=
  ((splitAll '/' (pyStripBoth (fun c => c == '/') path.toList)).map String.mk).filter
    (fun x => !x.isEmpty)

/-- The `after` helper of `label_from_url`: the token right after the first
occurrence of the two-element marker, when one follows it. -/
def afterMarker (m1 m2 : String) : List String → Option String
  | a :: b :: c :: rest =>
    if a == m1 && b == m2 then some c else afterMarker m1 m2 (b :: c :: rest)
  | _ => none

/-- Model of `label_from_url`. -/
def label_from_url (u : String) : String :=
  let parts := pathParts (urlsplitS u).path
  let name :=
    (afterMarker ("programs") ("programs") parts).orElse (fun _ =>
    (afterMarker ("oo") ("classes") parts).orElse (fun _ =>
    (afterMarker ("oo") ("interfaces") parts).orElse (fun _ =>
    (afterMarker ("ddic") ("tables") parts).orElse (fun _ =>
    (afterMarker ("ddic") ("structures") parts).orElse (fun _ =>
    (afterMarker ("ddic") ("dataelements") parts).orElse (fun _ =>
    (afterMarker ("ddic") ("domains") parts)))))))
  match name with
  | some n => safe_filename n
  | none =>
    let tail := if parts.length ≥ 4 then parts.drop (parts.length - 4) else parts
    safe_filename (String.intercalate ("_") tail)

/-! ## Item resolution (source lines 212-247) -/

/-- Model of `read_urls_file` (source lines 212-219), the file given as its list of
lines: `strip()` each line, drop blanks and lines starting with '#'. -/
def read_urls_file (lines : List String) : List String :=
  (lines.map (fun line => String.mk (pyStripBoth isPyWs line.toList))).filter
    (fun s => !s.isEmpty && !((("#").toList).isPrefixOf s.toList))

/-- Order-preserving first-occurrence dedup of the raw locator strings
(source lines 233-238).  Note it runs before resolution against the base. -/
def pyDedup (seen : List String) : List String → List String
  | [] => []
  | u :: r => if u ∈ seen then pyDedup seen r else u :: pyDedup (u :: seen) r

structure SourceItem where
  url : String
  label : String
deriving DecidableEq

/-- Python `rstrip` limited to slashes. -/
def rstripSlash (s : String) : String :=
  String.mk (stripEnd (fun c => c == '/') s.toList)

/-- Python `lstrip` limited to slashes. -/
def lstripSlash (s : String) : String :=
  String.mk (s.toList.dropWhile (fun c => c == '/'))

/-- Resolution of one raw locator (source lines 241-246). -/
def mkSourceItem (base u : String) : SourceItem :=
  let full :=
    if is_absolute_url u then u
    else pyUrljoin (rstripSlash base ++ ("/")) (lstripSlash u)
  ⟨full, label_from_url full⟩

/-- Model of `build_source_items` (source lines 222-247).  The optional locators file
is `none` when `--urls-file` is absent, `some none` when the named file does
not exist (causing `SystemExit`), and `some (some lines)` when it exists
with the given lines. -/
def build_source_items (base : String) (url_args : List String)
    (urls_file : Option (Option (List String))) : Except String (List SourceItem) :=
  match urls_file with
  | some none => .error ("ERROR: urls-file nicht gefunden")
  | _ =>
    let raw := url_args ++ (match urls_file with
      | some (some lines) => read_urls_file lines
      | _ => [])
    .ok ((pyDedup [] raw).map (mkSourceItem base))

example :
    mkSourceItem ("https://host:1234/sap/bc/adt")
      ("/programs/programs/Z_TEST1/source/main") =
    ⟨("https://host:1234/sap/bc/adt/programs/programs/Z_TEST1/source/main"),
     ("Z_TEST1")⟩ := by decide

example :
    add_query_param ("https://host:1234/sap/bc/adt/programs/programs/Z_TEST1/source/main")
      ("corrNr") ("DEVK900123") =
    ("https://host:1234/sap/bc/adt/programs/programs/Z_TEST1/source/main?corrNr=DEVK900123") := by
  decide

/-! ## The lock-corrNr extraction regex (source line 437) -/

/-- The class `[A-Z0-9]`. -/
def isLockCodeChar (c : Char) : Bool :=
  (decide (0x41 ≤ c.toNat) && decide (c.toNat ≤ 0x5A)) ||
  (decide (0x30 ≤ c.toNat) && decide (c.toNat ≤ 0x39))

/-- The literal part of the pattern `locked in request\s+([A-Z0-9]{10})`. -/
def lockLit : List Char := ("locked in request").toList

/-- Match the lock pattern at the head of the list and return the captured
group.  Greedy `\s+` followed by `[A-Z0-9]{10}` is deterministic here
because the two character classes are disjoint, so no backtracking case is
lost. -/
def lockMatchAt (l : List Char) : Option (List Char) :=
  if lockLit.isPrefixOf l then
    let r1 := l.drop lockLit.length
    let ws := r1.takeWhile isPyWs
    if ws.isEmpty then none
    else
      let code := (r1.drop ws.length).take 10
      if (code.length == 10) && code.all isLockCodeChar then some code else none
  else none

/-- Model of `re.search`: the match at the leftmost position where one exists. -/
def lockSearch : List Char → Option (List Char)
  | [] => none
  | x :: r =>
    match lockMatchAt (x :: r) with
    | some c => some c
    | none => lockSearch r

/-- The `lock_corrnr` enrichment of a failure message (source lines 437-438). -/
def lockCorrnrOf (msg : String) : Option String :=
  (lockSearch msg.toList).map String.mk

/-- Substring containment (Python `in` on strings). -/
def hasSubstr : List Char → List Char → Bool
  | [], n => n.isEmpty
  | h :: t, n => n.isPrefixOf (h :: t) || hasSubstr t n

/-- Model of `str.find(sub)`: index of the first occurrence, if any. -/
def subIdx : List Char → List Char → Option Nat
  | [], n => if n.isEmpty then some 0 else none
  | h :: t, n =>
    if n.isPrefixOf (h :: t) then some 0
    else (subIdx t n).map (· + 1)

/-- Model of `s.split(sub, 1)[0]`: the part before the first occurrence of `sub`
(the whole string when `sub` is absent). -/
def beforeSub (s sub : List Char) : List Char :=
  match subIdx s sub with
  | some i => s.take i
  | none => s

/-! ## The two activation request builders -/

/-- The URL built by the direct-path activation helper `adt_activate`
(source lines 190-210): truncate the text endpoint at `/source/`, append
`/activation`, add the `corrNr` query parameter.  The script defines this
function but `main` never calls it. -/
def adt_activate_url (obj_url corrnr : String) : String :=
  add_query_param
    (String.mk (beforeSub obj_url.toList (("/source/").toList)) ++ ("/activation"))
    ("corrNr") corrnr

/-- The request built by `adt_activate_via_service` (source lines 260-311):
the URL of the central `/sap/bc/adt/activation` service carrying
`method=activate` and `corrNr` query parameters, together with the
`rel_uri` that goes into the XML object-reference body.  The function's
`ValueError`s become `.error` (they are ordinary exceptions, caught at the
item boundary). -/
def serviceActReq (obj_url corrnr : String) : Except String (String × String) :=
  let u0 := (splitOnce '?' obj_url.toList).1
  let src := ("/source/").toList
  let u := if hasSubstr u0 src then beforeSub u0 src else u0
  let p := urlsplitS (String.mk u)
  if p.scheme.isEmpty || p.netloc.isEmpty then
    .error (("obj_url muss absolut sein: ") ++ obj_url)
  else
    let relUri := p.path
    match subIdx relUri.toList (("/sap/bc/adt").toList) with
    | none => .error (("URL enthaelt nicht /sap/bc/adt: ") ++ obj_url)
    | some idx =>
      let actPath := String.mk (relUri.toList.take (idx + 11)) ++ ("/activation")
      let actUrl0 := urlunsplitS ⟨p.scheme, p.netloc, actPath, (""), ("")⟩
      .ok (add_query_param (add_query_param actUrl0 ("method") ("activate")) ("corrNr") corrnr,
           relUri)

/-- The XML object-reference body posted to the activation service
(source lines 293-297). -/
def actBody (relUri : String) : String :=
  ("<?xml version=\"1.0\" encoding=\"UTF-8\"?>\n<adtcore:objectReferences xmlns:adtcore=\"http://www.sap.com/adt/core\">\n  <adtcore:objectReference adtcore:uri=\"")
    ++ relUri ++ ("\"/>\n</adtcore:objectReferences>\n")

/-- The `If-Match` header of `adt_put_text` (source line 123):
`etag if etag else "*"` — Python truthiness, so an empty-string tag also
falls back to the wildcard. -/
def ifMatchOf (etag : Option String) : String :=
  match etag with
  | some s => if s.isEmpty then ("*") else s
  | none => ("*")

deriving instance DecidableEq for Except

example :
    serviceActReq ("https://host:1234/sap/bc/adt/programs/programs/Z_TEST1/source/main")
      ("DEVK900123") =
    Except.ok (("https://host:1234/sap/bc/adt/activation?method=activate&corrNr=DEVK900123"),
      ("/sap/bc/adt/programs/programs/Z_TEST1")) := by decide

example :
    lockSearch (("PUT failed 403: object locked in request DEVK900123 by user X").toList) =
    some (("DEVK900123").toList) := by decide

/-! ## The `main` run (source lines 314-472)

`main` is modelled as a deterministic function of the parsed arguments and
of a `World` supplying the outcomes of the session calls and of the local
cleaner subprocess.  Its value records the ordered trace of network
requests, the local files written, the failure-log entries, the ok/fail
counters and the exit outcome.  `SystemExit` (which is *not* a subclass of
`Exception` and therefore escapes the per-item `except Exception` handler)
is modelled as the `aborted`/`abort` outcome; ordinary exceptions raised by
the session calls or the cleaner are the `.error` results of the `World`
fields, carrying their message `str(e)`. -/

inductive Mode where
  | test
  | writeback
  | writeback_noact
deriving DecidableEq

/-- A network request issued by the run, in order. -/
inductive Ev where
  | csrfFetch (url : String)
  | get (url : String)
  | put (url : String) (token : String) (ifMatch : String)
  | activate (url : String) (token : String) (body : String)
deriving DecidableEq

/-- One record of the structured (JSON-lines) failure log
(source lines 440-445). -/
structure FailEntry where
  label : String
  url : String
  error : String
  lock_corrnr : Option String
deriving DecidableEq

/-- The failure entry built in the `except` handler: the structured entry
truncates the message to 4000 characters; `lock_corrnr` is the regex
enrichment. -/
def mkFailEntry (it : SourceItem) (msg : String) : FailEntry :=
  ⟨it.label, it.url, String.mk (msg.toList.take 4000), lockCorrnrOf msg⟩

/-- The block appended to the human-readable failure log for one entry
(source lines 452-456), as its list of lines.  The `LOCKED_IN` line is
emitted only when `lock_corrnr` is truthy. -/
def failTxtBlock (it : SourceItem) (msg : String) : List String :=
  [("---"), ("LABEL: ") ++ it.label, ("URL: ") ++ it.url] ++
  (match lockCorrnrOf msg with
   | some c => if c.isEmpty then [] else [("LOCKED_IN: ") ++ c]
   | none => []) ++
  [("ERROR:"), msg]

/-- Responses of the environment: the remote server (session calls) and the
local cleaner subprocess.  An `.error` is an ordinary raised `Exception`
with its `str` message (`raise_for_status`, the explicit `RuntimeError`s of
the helpers, `FileNotFoundError`, ...). -/
structure World where
  csrf : Except String String
  fetchResp : String → Except String (String × Option String)
  cleanResp : String → Except String String
  putResp : String → Except String Unit
  actResp : String → Except String Unit

/-- The parsed command-line arguments and environment relevant to the run.
`urlsFile` is as in `build_source_items`; `user`/`pw` are the `SAP_USER` /
`SAP_PASS` environment variables (`none` when unset). -/
structure Args where
  base : String
  mode : Mode
  urls : List String
  urlsFile : Option (Option (List String))
  corrnr : Option String
  user : Option String
  pw : Option String

def corrnrAbortMsg : String := ("ERROR: --corrnr ist im writeback Modus erforderlich.")

def credsAbortMsg : String := ("ERROR: Setze SAP_USER und SAP_PASS als Environment Variables.")

def noUrlsAbortMsg : String := ("ERROR: Keine URLs angegeben.")

/-- Outcome of one item of the batch loop. -/
inductive ItemOut where
  | ok
  | failed (e : FailEntry) (txt : List String)
  | aborted (msg : String)
deriving DecidableEq

/-- Events, locally written files and outcome of one item. -/
structure ItemStep where
  evs : List Ev
  files : List (String × String)
  out : ItemOut
deriving DecidableEq

/-- One iteration of the batch loop (source lines 406-463): fetch, clean,
then either save locally (test mode) or conditionally PUT and, in full
writeback mode, activate via the central service.  Any `.error` outcome of
a step is caught at the item boundary and becomes `failed`; the
`SystemExit` of the missing-`corrnr` check becomes `aborted`. -/
def processItem (mode : Mode) (corrnr : Option String) (tok : Option String)
    (w : World) (it : SourceItem) : ItemStep :=
  match w.fetchResp it.url with
  | .error m => ⟨[Ev.get it.url], [], .failed (mkFailEntry it m) (failTxtBlock it m)⟩
  | .ok (source, etag) =>
    match w.cleanResp source with
    | .error m => ⟨[Ev.get it.url], [], .failed (mkFailEntry it m) (failTxtBlock it m)⟩
    | .ok cleaned =>
      match mode with
      | .test => ⟨[Ev.get it.url], [(safe_filename it.label ++ (".abap"), cleaned)], .ok⟩
      | _ =>
        match tok with
        | none =>
          -- `assert csrf_token is not None`: an `AssertionError` (caught by
          -- the handler, message "").  Unreachable from `mainRun`, which
          -- always fetches the token in the writeback modes.
          ⟨[Ev.get it.url], [], .failed (mkFailEntry it ("")) (failTxtBlock it (""))⟩
        | some t =>
          -- `if not args.corrnr:` is a Python truthiness test: the empty
          -- string aborts exactly like `None`.
          match corrnr with
          | none => ⟨[Ev.get it.url], [], .aborted corrnrAbortMsg⟩
          | some corr =>
            if corr.isEmpty then ⟨[Ev.get it.url], [], .aborted corrnrAbortMsg⟩
            else
              let put_url := add_query_param it.url ("corrNr") corr
              let im := ifMatchOf etag
              match w.putResp put_url with
              | .error m =>
                ⟨[Ev.get it.url, Ev.put put_url t im], [],
                 .failed (mkFailEntry it m) (failTxtBlock it m)⟩
              | .ok _ =>
                match mode with
                | .writeback =>
                  match serviceActReq it.url corr with
                  | .error m =>
                    ⟨[Ev.get it.url, Ev.put put_url t im], [],
                     .failed (mkFailEntry it m) (failTxtBlock it m)⟩
                  | .ok (actUrl, relUri) =>
                    match w.actResp actUrl with
                    | .error m =>
                      ⟨[Ev.get it.url, Ev.put put_url t im, Ev.activate actUrl t (actBody relUri)],
                       [], .failed (mkFailEntry it m) (failTxtBlock it m)⟩
                    | .ok _ =>
                      ⟨[Ev.get it.url, Ev.put put_url t im, Ev.activate actUrl t (actBody relUri)],
                       [], .ok⟩
                | _ => ⟨[Ev.get it.url, Ev.put put_url t im], [], .ok⟩

/-- Accumulated outcome of the batch loop. -/
structure LoopRes where
  events : List Ev
  outFiles : List (String × String)
  failures : List FailEntry
  txtLog : List String
  okCount : Nat
  failCount : Nat
  abortMsg : Option String
deriving DecidableEq

/-- The batch loop: process items in order; a `failed` item is recorded and
processing continues; an `aborted` item stops the run at once. -/
def runItems (mode : Mode) (corrnr : Option String) (tok : Option String)
    (w : World) : List SourceItem → LoopRes
  | [] => ⟨[], [], [], [], 0, 0, none⟩
  | it :: rest =>
    let st := processItem mode corrnr tok w it
    match st.out with
    | .aborted m => ⟨st.evs, st.files, [], [], 0, 0, some m⟩
    | .ok =>
      let r := runItems mode corrnr tok w rest
      ⟨st.evs ++ r.events, st.files ++ r.outFiles, r.failures, r.txtLog,
       r.okCount + 1, r.failCount, r.abortMsg⟩
    | .failed e txt =>
      let r := runItems mode corrnr tok w rest
      ⟨st.evs ++ r.events, st.files ++ r.outFiles, e :: r.failures, txt ++ r.txtLog,
       r.okCount, r.failCount + 1, r.abortMsg⟩

/-- Exit outcome of the whole run: a fall-through of `main` (exit status 0
regardless of the per-item counters) or an abort with a non-zero status
(`SystemExit` or an uncaught exception before the loop). -/
inductive RunExit where
  | normal
  | abort (msg : String)
deriving DecidableEq

structure RunResult where
  events : List Ev
  outFiles : List (String × String)
  failures : List FailEntry
  txtLog : List String
  okCount : Nat
  failCount : Nat
  exit : RunExit
deriving DecidableEq

/-- The items a run operates on: `build_source_items` applied to the
rstripped base, or none when it raises. -/
def itemsOfArgs (a : Args) : List SourceItem :=
  match build_source_items (rstripSlash a.base) a.urls a.urlsFile with
  | .ok items => items
  | .error _ => []

/-- The exit outcome determined by the loop: fall-through, or the escaped
`SystemExit`. -/
def exitOf (o : Option String) : RunExit :=
  match o with
  | some m => RunExit.abort m
  | none => RunExit.normal

/-- Package the loop result behind an event prefix. -/
def finishRun (pre : List Ev) (r : LoopRes) : RunResult :=
  ⟨pre ++ r.events, r.outFiles, r.failures, r.txtLog, r.okCount, r.failCount,
   exitOf r.abortMsg⟩

/-- Model of `main` (source lines 314-472). -/
def mainRun (a : Args) (w : World) : RunResult :=
  if !pyTruthy a.user || !pyTruthy a.pw then
    ⟨[], [], [], [], 0, 0, .abort credsAbortMsg⟩
  else
    match build_source_items (rstripSlash a.base) a.urls a.urlsFile with
    | .error m => ⟨[], [], [], [], 0, 0, .abort m⟩
    | .ok items =>
      match items with
      | [] => ⟨[], [], [], [], 0, 0, .abort noUrlsAbortMsg⟩
      | it0 :: _ =>
        match a.mode with
        | .test => finishRun [] (runItems .test a.corrnr none w items)
        | m =>
          match w.csrf with
          | .error msg => ⟨[Ev.csrfFetch it0.url], [], [], [], 0, 0, .abort msg⟩
          | .ok t => finishRun [Ev.csrfFetch it0.url] (runItems m a.corrnr (some t) w items)

/-- Reduction of `mainRun` in test mode once the loop is reached. -/
theorem mainRun_test_eq (a : Args) (w : World) (it0 : SourceItem) (restI : List SourceItem)
    (hu : pyTruthy a.user = true) (hp : pyTruthy a.pw = true)
    (hb : build_source_items (rstripSlash a.base) a.urls a.urlsFile = Except.ok (it0 :: restI))
    (hmode : a.mode = Mode.test) :
    mainRun a w = finishRun [] (runItems Mode.test a.corrnr none w (it0 :: restI)) := by
  unfold mainRun
  rw [if_neg (by simp [hu, hp]), hb, hmode]

/-- Reduction of `mainRun` in a writeback-capable mode once the loop is
reached with the fetched token. -/
theorem mainRun_wb_eq (a : Args) (w : World) (it0 : SourceItem) (restI : List SourceItem)
    (t : String)
    (hu : pyTruthy a.user = true) (hp : pyTruthy a.pw = true)
    (hb : build_source_items (rstripSlash a.base) a.urls a.urlsFile = Except.ok (it0 :: restI))
    (hmode : a.mode ≠ Mode.test) (hcs : w.csrf = Except.ok t) :
    mainRun a w =
      finishRun [Ev.csrfFetch it0.url]
        (runItems a.mode a.corrnr (some t) w (it0 :: restI)) := by
  unfold mainRun
  rw [if_neg (by simp [hu, hp]), hb]
  cases h : a.mode with
  | test => exact absurd h hmode
  | writeback => rw [hcs]
  | writeback_noact => rw [hcs]

/-! ## Concrete fixtures used by the scenario claims -/

/-- The base ADT prefix of the scenario claims. -/
def exBase : String := ("https://host:1234/sap/bc/adt")

/-- The relative locator of the scenario claims. -/
def exRelUrl : String := ("/programs/programs/Z_TEST1/source/main")

/-- Its absolute resolution. -/
def exUrl : String := ("https://host:1234/sap/bc/adt/programs/programs/Z_TEST1/source/main")

/-- The work item the scenarios operate on. -/
def exItem : SourceItem := ⟨exUrl, ("Z_TEST1")⟩

/-- A fully coöperative environment: token `TOK`, a fetch serving `SRC`
with no ETag, a cleaner output `CLEANED`, writes and activations accepted. -/
def wOk : World :=
  { csrf := .ok ("TOK")
    fetchResp := fun _ => .ok (("SRC"), none)
    cleanResp := fun _ => .ok ("CLEANED")
    putResp := fun _ => .ok ()
    actResp := fun _ => .ok () }

/-- Arguments of the local-save scenario: base prefix, the single relative
locator, mode `test`, credentials set. -/
def exArgsTest : Args :=
  { base := exBase, mode := .test, urls := [exRelUrl], urlsFile := none,
    corrnr := none, user := some ("U"), pw := some ("P") }

example :
    mainRun exArgsTest wOk =
    ⟨[Ev.get exUrl], [(("Z_TEST1.abap"), ("CLEANED"))], [], [], 1, 0, .normal⟩ := by
  decide

/-! ## Structural lemmas about `processItem` -/

/-- The network events of one item: either just its fetch, or the fetch
followed by the conditional PUT (whose `If-Match` comes from the fetched
ETag and whose URL carries the `corrNr` parameter), optionally followed by
the central-service activation request. -/
theorem processItem_evs (mode : Mode) (corrnr tok : Option String) (w : World)
    (it : SourceItem) (st : ItemStep) (hst : st = processItem mode corrnr tok w it) :
    st.evs = [Ev.get it.url] ∨
    ∃ t corr src etag,
      tok = some t ∧ corrnr = some corr ∧ mode ≠ Mode.test ∧
      w.fetchResp it.url = Except.ok (src, etag) ∧
      (st.evs = [Ev.get it.url,
                 Ev.put (add_query_param it.url ("corrNr") corr) t (ifMatchOf etag)] ∨
       ∃ actUrl relUri,
         mode = Mode.writeback ∧
         serviceActReq it.url corr = Except.ok (actUrl, relUri) ∧
         st.evs = [Ev.get it.url,
                   Ev.put (add_query_param it.url ("corrNr") corr) t (ifMatchOf etag),
                   Ev.activate actUrl t (actBody relUri)]) := by
  subst hst
  cases hf : w.fetchResp it.url with
  | error m => left; simp [processItem, hf]
  | ok p =>
    obtain ⟨src, etag⟩ := p
    cases hc : w.cleanResp src with
    | error m => left; simp [processItem, hf, hc]
    | ok cleaned =>
      cases mode with
      | test => left; simp [processItem, hf, hc]
      | writeback =>
        cases tok with
        | none => left; simp [processItem, hf, hc]
        | some t =>
          cases corrnr with
          | none => left; simp [processItem, hf, hc]
          | some corr =>
            by_cases hce : corr.isEmpty = true
            · left
              simp [processItem, hf, hc, hce]
            · right
              refine ⟨t, corr, src, etag, rfl, rfl, by decide, rfl, ?_⟩
              cases hp : w.putResp (add_query_param it.url ("corrNr") corr) with
              | error m => left; simp [processItem, hf, hc, hce, hp]
              | ok u =>
                cases ha : serviceActReq it.url corr with
                | error m => left; simp [processItem, hf, hc, hce, hp, ha]
                | ok q =>
                  obtain ⟨actUrl, relUri⟩ := q
                  right
                  refine ⟨actUrl, relUri, rfl, rfl, ?_⟩
                  cases hact : w.actResp actUrl with
                  | error m => simp [processItem, hf, hc, hce, hp, ha, hact]
                  | ok v => simp [processItem, hf, hc, hce, hp, ha, hact]
      | writeback_noact =>
        cases tok with
        | none => left; simp [processItem, hf, hc]
        | some t =>
          cases corrnr with
          | none => left; simp [processItem, hf, hc]
          | some corr =>
            by_cases hce : corr.isEmpty = true
            · left
              simp [processItem, hf, hc, hce]
            · right
              refine ⟨t, corr, src, etag, rfl, rfl, by decide, rfl, ?_⟩
              cases hp : w.putResp (add_query_param it.url ("corrNr") corr) with
              | error m => left; simp [processItem, hf, hc, hce, hp]
              | ok u => left; simp [processItem, hf, hc, hce, hp]

/-- The outcome of one item: `aborted` arises only from the
missing-`corrnr` check of the writeback branch — a truthiness test, so a
`None` and an empty-string transport number abort alike — with its fixed
message. -/
theorem processItem_out_cases (mode : Mode) (corrnr tok : Option String) (w : World)
    (it : SourceItem) :
    (processItem mode corrnr tok w it).out = ItemOut.ok ∨
    (∃ msg, (processItem mode corrnr tok w it).out =
      ItemOut.failed (mkFailEntry it msg) (failTxtBlock it msg)) ∨
    (mode ≠ Mode.test ∧ pyTruthy corrnr = false ∧
      (processItem mode corrnr tok w it).out = ItemOut.aborted corrnrAbortMsg) := by
  cases hf : w.fetchResp it.url with
  | error m => right; left; exact ⟨m, by simp [processItem, hf]⟩
  | ok p =>
    obtain ⟨src, etag⟩ := p
    cases hc : w.cleanResp src with
    | error m => right; left; exact ⟨m, by simp [processItem, hf, hc]⟩
    | ok cleaned =>
      cases mode with
      | test => left; simp [processItem, hf, hc]
      | writeback =>
        cases tok with
        | none => right; left; exact ⟨(""), by simp [processItem, hf, hc]⟩
        | some t =>
          cases corrnr with
          | none =>
            right; right
            exact ⟨by simp, rfl, by simp [processItem, hf, hc]⟩
          | some corr =>
            by_cases hce : corr.isEmpty = true
            · right; right
              exact ⟨by simp, by simp [pyTruthy, hce], by simp [processItem, hf, hc, hce]⟩
            · cases hp : w.putResp (add_query_param it.url ("corrNr") corr) with
              | error m => right; left; exact ⟨m, by simp [processItem, hf, hc, hce, hp]⟩
              | ok u =>
                cases ha : serviceActReq it.url corr with
                | error m =>
                  right; left; exact ⟨m, by simp [processItem, hf, hc, hce, hp, ha]⟩
                | ok q =>
                  obtain ⟨actUrl, relUri⟩ := q
                  cases hact : w.actResp actUrl with
                  | error m =>
                    right; left; exact ⟨m, by simp [processItem, hf, hc, hce, hp, ha, hact]⟩
                  | ok v => left; simp [processItem, hf, hc, hce, hp, ha, hact]
      | writeback_noact =>
        cases tok with
        | none => right; left; exact ⟨(""), by simp [processItem, hf, hc]⟩
        | some t =>
          cases corrnr with
          | none =>
            right; right
            exact ⟨by simp, rfl, by simp [processItem, hf, hc]⟩
          | some corr =>
            by_cases hce : corr.isEmpty = true
            · right; right
              exact ⟨by simp, by simp [pyTruthy, hce], by simp [processItem, hf, hc, hce]⟩
            · cases hp : w.putResp (add_query_param it.url ("corrNr") corr) with
              | error m => right; left; exact ⟨m, by simp [processItem, hf, hc, hce, hp]⟩
              | ok u => left; simp [processItem, hf, hc, hce, hp]

/-- The token carried by a write-capable request. -/
def evToken : Ev → Option String
  | .put _ t _ => some t
  | .activate _ t _ => some t
  | _ => none

/-- Whether an event is the protection-token fetch. -/
def isCsrfEv : Ev → Bool
  | .csrfFetch _ => true
  | _ => false

/-- Whether an event is a write or activate call. -/
def isWriteEv (e : Ev) : Bool := (evToken e).isSome

/-- Per-item events are never the token fetch, and any write/activate event
among them carries exactly the token the loop was given, in a non-test
mode. -/
theorem processItem_evs_mem (mode : Mode) (corrnr tok : Option String) (w : World)
    (it : SourceItem) (e : Ev) (he : e ∈ (processItem mode corrnr tok w it).evs) :
    isCsrfEv e = false ∧
      (isWriteEv e = true →
        ∃ t, tok = some t ∧ evToken e = some t ∧ mode ≠ Mode.test) := by
  rcases processItem_evs mode corrnr tok w it _ rfl with
    hevs | ⟨t, corr, src, etag, htok, hcorr, hmode, hfetch, hrest⟩
  · rw [hevs] at he
    simp at he
    subst he
    exact ⟨rfl, by intro hw; cases hw⟩
  · rcases hrest with hevs | ⟨actUrl, relUri, hwb, hact, hevs⟩ <;>
      rw [hevs] at he <;> simp at he
    · rcases he with rfl | rfl
      · exact ⟨rfl, by intro hw; cases hw⟩
      · exact ⟨rfl, fun _ => ⟨t, htok, rfl, hmode⟩⟩
    · rcases he with rfl | rfl | rfl
      · exact ⟨rfl, by intro hw; cases hw⟩
      · exact ⟨rfl, fun _ => ⟨t, htok, rfl, hmode⟩⟩
      · exact ⟨rfl, fun _ => ⟨t, htok, rfl, hmode⟩⟩

/-- Any PUT among an item's events is the conditional write of that item:
its URL is the item URL with the `corrNr` parameter, and its `If-Match`
value is derived from the ETag its own fetch returned. -/
theorem processItem_put_mem (mode : Mode) (corrnr tok : Option String) (w : World)
    (it : SourceItem) (url t im : String)
    (he : Ev.put url t im ∈ (processItem mode corrnr tok w it).evs) :
    ∃ corr src etag,
      corrnr = some corr ∧ tok = some t ∧
      w.fetchResp it.url = Except.ok (src, etag) ∧
      im = ifMatchOf etag ∧
      url = add_query_param it.url ("corrNr") corr := by
  rcases processItem_evs mode corrnr tok w it _ rfl with
    hevs | ⟨t', corr, src, etag, htok, hcorr, hmode, hfetch, hrest⟩
  · rw [hevs] at he
    simp at he
  · rcases hrest with hevs | ⟨actUrl, relUri, hwb, hact, hevs⟩ <;>
      rw [hevs] at he <;> simp at he <;>
      obtain ⟨hu, ht, hi⟩ := he <;>
      exact ⟨corr, src, etag, hcorr, ht ▸ htok, hfetch, hi, hu⟩

/-- Any activation among an item's events is the central-service request
for that item, in full writeback mode. -/
theorem processItem_act_mem (mode : Mode) (corrnr tok : Option String) (w : World)
    (it : SourceItem) (url t body : String)
    (he : Ev.activate url t body ∈ (processItem mode corrnr tok w it).evs) :
    mode = Mode.writeback ∧
    ∃ corr relUri,
      corrnr = some corr ∧ tok = some t ∧
      serviceActReq it.url corr = Except.ok (url, relUri) ∧
      body = actBody relUri := by
  rcases processItem_evs mode corrnr tok w it _ rfl with
    hevs | ⟨t', corr, src, etag, htok, hcorr, hmode, hfetch, hrest⟩
  · rw [hevs] at he
    simp at he
  · rcases hrest with hevs | ⟨actUrl, relUri, hwb, hact, hevs⟩ <;>
      rw [hevs] at he <;> simp at he
    obtain ⟨hu, ht, hb⟩ := he
    exact ⟨hwb, corr, relUri, hcorr, ht ▸ htok, hu ▸ hact, hb⟩

/-- Every event of the batch loop belongs to one of its items. -/
theorem runItems_mem (mode : Mode) (corrnr tok : Option String) (w : World) :
    ∀ (items : List SourceItem) (e : Ev),
      e ∈ (runItems mode corrnr tok w items).events →
      ∃ it, it ∈ items ∧ e ∈ (processItem mode corrnr tok w it).evs := by
  intro items
  induction items with
  | nil => intro e he; simp [runItems] at he
  | cons it rest ih =>
    intro e he
    rw [runItems] at he
    split at he
    · exact ⟨it, List.mem_cons_self it rest, he⟩
    · simp only [List.mem_append] at he
      rcases he with he | he
      · exact ⟨it, List.mem_cons_self it rest, he⟩
      · obtain ⟨it', hit', he'⟩ := ih e he
        exact ⟨it', List.mem_cons_of_mem it hit', he'⟩
    · simp only [List.mem_append] at he
      rcases he with he | he
      · exact ⟨it, List.mem_cons_self it rest, he⟩
      · obtain ⟨it', hit', he'⟩ := ih e he
        exact ⟨it', List.mem_cons_of_mem it hit', he'⟩

/-- Shape of the whole run's event trace: empty (pre-loop abort), the loop
trace alone (test mode), or the token fetch followed by the loop trace
(or the failed token fetch alone) in a writeback-capable mode. -/
theorem mainRun_events_cases (a : Args) (w : World) :
    (mainRun a w).events = [] ∨
    (a.mode = Mode.test ∧
      (mainRun a w).events =
        (runItems Mode.test a.corrnr none w (itemsOfArgs a)).events) ∨
    (a.mode ≠ Mode.test ∧ ∃ u,
      ((mainRun a w).events = [Ev.csrfFetch u]) ∨
      (∃ t, w.csrf = Except.ok t ∧
        (mainRun a w).events =
          Ev.csrfFetch u :: (runItems a.mode a.corrnr (some t) w (itemsOfArgs a)).events)) := by
  unfold mainRun
  by_cases hcred : (!pyTruthy a.user || !pyTruthy a.pw) = true
  · rw [if_pos hcred]; left; rfl
  · rw [if_neg hcred]
    cases hb : build_source_items (rstripSlash a.base) a.urls a.urlsFile with
    | error m => left; rfl
    | ok items =>
      have hitems : itemsOfArgs a = items := by
        unfold itemsOfArgs
        rw [hb]
      cases items with
      | nil => left; rfl
      | cons it0 restI =>
        cases hm : a.mode with
        | test =>
          right; left
          refine ⟨rfl, ?_⟩
          rw [hitems]
          simp [finishRun]
        | writeback =>
          refine Or.inr (Or.inr ⟨by decide, it0.url, ?_⟩)
          cases hcs : w.csrf with
          | error m => left; rfl
          | ok t =>
            right
            refine ⟨t, rfl, ?_⟩
            rw [hitems]
            simp [finishRun]
        | writeback_noact =>
          refine Or.inr (Or.inr ⟨by decide, it0.url, ?_⟩)
          cases hcs : w.csrf with
          | error m => left; rfl
          | ok t =>
            right
            refine ⟨t, rfl, ?_⟩
            rw [hitems]
            simp [finishRun]

/-- With a truthy (non-empty) transport number present, or in test mode,
the loop never aborts, processes every item, and its failure log has one
entry per failed item. -/
theorem runItems_counts (mode : Mode) (corrnr tok : Option String) (w : World)
    (items : List SourceItem) (h : pyTruthy corrnr = true ∨ mode = Mode.test) :
    (runItems mode corrnr tok w items).abortMsg = none ∧
    (runItems mode corrnr tok w items).okCount +
      (runItems mode corrnr tok w items).failCount = items.length ∧
    (runItems mode corrnr tok w items).failures.length =
      (runItems mode corrnr tok w items).failCount := by
  induction items with
  | nil => simp [runItems]
  | cons it rest ih =>
    rcases processItem_out_cases mode corrnr tok w it with hok | ⟨msg, hfail⟩ | ⟨hmode, hcorr, hab⟩
    · rw [runItems, hok]
      refine ⟨ih.1, ?_, ih.2.2⟩
      have h2 := ih.2.1
      simp only [List.length_cons]
      omega
    · rw [runItems, hfail]
      refine ⟨ih.1, ?_, ?_⟩
      · have h2 := ih.2.1
        simp only [List.length_cons]
        omega
      · simp [ih.2.2]
    · exfalso
      rcases h with h | h
      · rw [hcorr] at h
        cases h
      · exact hmode h

/-- With the writeback branch selected and a falsy transport number
(`None` or the empty string), an item can never complete successfully: its
processing is cut short by the `corrnr` truthiness check (or an earlier
error). -/
theorem processItem_not_ok (mode : Mode) (corrnr tok : Option String) (w : World)
    (it : SourceItem) (hm : mode ≠ Mode.test) (hcf : pyTruthy corrnr = false) :
    (processItem mode corrnr tok w it).out ≠ ItemOut.ok := by
  cases hf : w.fetchResp it.url with
  | error m => simp [processItem, hf]
  | ok p =>
    obtain ⟨src, etag⟩ := p
    cases hc : w.cleanResp src with
    | error m => simp [processItem, hf, hc]
    | ok cleaned =>
      have hcases : corrnr = none ∨ ∃ corr, corrnr = some corr ∧ corr.isEmpty = true := by
        cases corrnr with
        | none => exact Or.inl rfl
        | some corr =>
          refine Or.inr ⟨corr, rfl, ?_⟩
          simpa [pyTruthy] using hcf
      cases mode with
      | test => exact absurd rfl hm
      | writeback =>
        cases tok with
        | none => simp [processItem, hf, hc]
        | some t =>
          rcases hcases with rfl | ⟨corr, rfl, hce⟩
          · simp [processItem, hf, hc]
          · simp [processItem, hf, hc, hce]
      | writeback_noact =>
        cases tok with
        | none => simp [processItem, hf, hc]
        | some t =>
          rcases hcases with rfl | ⟨corr, rfl, hce⟩
          · simp [processItem, hf, hc]
          · simp [processItem, hf, hc, hce]

/-- In a writeback-capable mode without a transport number, the loop never
counts a success: it either aborts with the `corrnr` message (at the first
item that reaches the writeback step) or, when every item fails earlier,
finishes with every item counted as failed. -/
theorem runItems_corrnr_none (mode : Mode) (tok : Option String) (w : World)
    (items : List SourceItem) (hm : mode ≠ Mode.test) :
    (runItems mode none tok w items).okCount = 0 ∧
    ((runItems mode none tok w items).abortMsg = some corrnrAbortMsg ∨
      ((runItems mode none tok w items).abortMsg = none ∧
        (runItems mode none tok w items).failCount = items.length)) := by
  induction items with
  | nil => simp [runItems]
  | cons it rest ih =>
    rcases processItem_out_cases mode none tok w it with hok | ⟨msg, hfail⟩ | ⟨_, _, hab⟩
    · exact absurd hok (processItem_not_ok mode none tok w it hm rfl)
    · rw [runItems, hfail]
      refine ⟨ih.1, ?_⟩
      rcases ih.2 with h | ⟨h1, h2⟩
      · left; exact h
      · right
        simp only [List.length_cons]
        exact ⟨h1, by omega⟩
    · rw [runItems, hab]
      exact ⟨rfl, Or.inl rfl⟩

/-! ## Dedup lemmas (claim C2) -/

theorem pyDedup_sublist (seen : List String) (l : List String) :
    (pyDedup seen l).Sublist l := by
  induction l generalizing seen with
  | nil => simp [pyDedup]
  | cons u r ih =>
    by_cases h : u ∈ seen
    · rw [pyDedup, if_pos h]
      exact (ih seen).trans (List.sublist_cons_self u r)
    · rw [pyDedup, if_neg h]
      exact (ih (u :: seen)).cons₂ u

theorem pyDedup_not_mem_seen {seen l : List String} {x : String}
    (hx : x ∈ pyDedup seen l) : x ∉ seen := by
  induction l generalizing seen with
  | nil => simp [pyDedup] at hx
  | cons u r ih =>
    by_cases h : u ∈ seen
    · rw [pyDedup, if_pos h] at hx
      exact ih hx
    · rw [pyDedup, if_neg h] at hx
      rcases List.mem_cons.1 hx with rfl | hx'
      · exact h
      · intro hxs
        exact ih hx' (List.mem_cons_of_mem u hxs)

theorem pyDedup_nodup (seen : List String) (l : List String) :
    (pyDedup seen l).Nodup := by
  induction l generalizing seen with
  | nil => simp [pyDedup]
  | cons u r ih =>
    by_cases h : u ∈ seen
    · rw [pyDedup, if_pos h]
      exact ih seen
    · rw [pyDedup, if_neg h]
      refine List.nodup_cons.2 ⟨?_, ih (u :: seen)⟩
      intro hmem
      exact pyDedup_not_mem_seen hmem (List.mem_cons_self u seen)

/-- C2, counterexample: the dedup of `build_source_items` runs on the raw
locator strings before resolution, so the same logical locator given once
relative and once absolute survives as two work items with the same
absolute URL — the output *does* contain duplicate locators. -/
theorem c2_counterexample :
    build_source_items exBase [exRelUrl, exUrl] none = Except.ok [exItem, exItem] ∧
    ¬ (((build_source_items exBase [exRelUrl, exUrl] none).toOption.getD []).map
        SourceItem.url).Nodup := by
  decide

/-- C2 (amended): `build_source_items` deduplicates the *raw* locator
strings (explicit arguments followed by the filtered file lines) preserving
first-occurrence order — the deduplicated raw list is duplicate-free and a
sublist of the raw list — and then resolves each survivor against the base;
locators whose raw forms differ are not merged even when they resolve to
the same absolute URL. -/
theorem c2_dedup_amended (base : String) (urlArgs : List String) (lines : List String) :
    build_source_items base urlArgs (some (some lines)) =
      Except.ok ((pyDedup [] (urlArgs ++ read_urls_file lines)).map (mkSourceItem base)) ∧
    (pyDedup [] (urlArgs ++ read_urls_file lines)).Nodup ∧
    (pyDedup [] (urlArgs ++ read_urls_file lines)).Sublist (urlArgs ++ read_urls_file lines) := by
  refine ⟨rfl, pyDedup_nodup _ _, pyDedup_sublist _ _⟩

/-- Witness for `c2_dedup_amended` at a concrete input. -/
theorem c2_dedup_amended_witness :
    build_source_items exBase [exRelUrl, exUrl] (some (some [("# comment"), (""), exRelUrl])) =
      Except.ok ((pyDedup [] [exRelUrl, exUrl, exRelUrl]).map (mkSourceItem exBase)) ∧
    (pyDedup [] [exRelUrl, exUrl, exRelUrl]).Nodup := by
  have h := c2_dedup_amended exBase [exRelUrl, exUrl] [("# comment"), (""), exRelUrl]
  have e : read_urls_file [("# comment"), (""), exRelUrl] = [exRelUrl] := by decide
  rw [e] at h
  exact ⟨h.1, h.2.1⟩

/-! ## Claim C6: `safe_filename` -/

/-- C6, counterexample: `.strip(" .")` removes leading dots and spaces as
well (the claim allows only trailing ones), and the DEL control character
`\x7F` is not in the replaced class `[<>:"/\\|?*\x00-\x1F]`, so it is not
replaced by an underscore. -/
theorem c6_counterexample :
    safe_filename (" .a") = ("a") ∧ safe_filename (" .a") ≠ (" .a") ∧
    safe_filename ("\x7F") = ("\x7F") ∧ safe_filename ("\x7F") ≠ ("_") := by
  decide

/-- C6 (amended): `safe_filename` replaces each character of
`\x00`-`\x1F` and each of `<>:"/\|?*` by an underscore, strips dots and
spaces from *both* ends, and returns the placeholder `unnamed` when the
result would be empty; hence it never returns the empty string and never
returns a string containing one of the replaced characters.  (It is a pure
function, so the same input always yields the same output.) -/
theorem c6_safe_filename_amended :
    (∀ s : String, safe_filename s ≠ ("") ∧
      ∀ c ∈ (safe_filename s).toList, illegalFnameChar c = false) ∧
    safe_filename ("") = ("unnamed") := by
  refine ⟨?_, by decide⟩
  intro s
  unfold safe_filename
  by_cases hE : (sanitizedCore s).isEmpty
  · rw [if_pos hE]
    exact ⟨by decide, by decide⟩
  · rw [if_neg hE]
    refine ⟨?_, ?_⟩
    · intro hc
      apply hE
      have h2 : sanitizedCore s = [] := congrArg String.toList hc
      rw [h2]
      rfl
    · intro c hc
      have hct : c ∈ sanitizedCore s := hc
      unfold sanitizedCore at hct
      rcases List.mem_map.1 (mem_pyStripBoth hct) with ⟨a, -, ha⟩
      by_cases hia : illegalFnameChar a = true
      · rw [if_pos hia] at ha
        rw [← ha]
        decide
      · rw [if_neg hia] at ha
        rw [← ha]
        simpa using hia

/-- Witness for `c6_safe_filename_amended` at a concrete input. -/
theorem c6_safe_filename_amended_witness :
    safe_filename ("a<b") ≠ ("") ∧ illegalFnameChar '_' = false := by
  refine ⟨(c6_safe_filename_amended.1 ("a<b")).1, ?_⟩
  exact (c6_safe_filename_amended.1 ("a<b")).2 '_' (by decide)

/-! ## Claim C7: the single-item local-save scenario -/

/-- C7: with base `https://host:1234/sap/bc/adt` and the single relative
locator `/programs/programs/Z_TEST1/source/main` in local-save mode, the
resolver yields exactly one item labelled `Z_TEST1`, and a successful run
writes exactly the one output file `Z_TEST1.abap` and records no failure
entries, ending normally with ok=1, fail=0. -/
theorem c7_single_item_scenario :
    build_source_items exBase [exRelUrl] none = Except.ok [exItem] ∧
    exItem.label = ("Z_TEST1") ∧
    (mainRun exArgsTest wOk).outFiles = [(("Z_TEST1.abap"), ("CLEANED"))] ∧
    (mainRun exArgsTest wOk).failures = [] ∧
    (mainRun exArgsTest wOk).okCount = 1 ∧
    (mainRun exArgsTest wOk).failCount = 0 ∧
    (mainRun exArgsTest wOk).exit = RunExit.normal := by
  decide

/-! ## Claim C1: missing transport number in a writeback run -/

/-- A writeback run with `--corrnr` absent. -/
def exArgsWbNoCorr : Args :=
  { base := exBase, mode := .writeback, urls := [exRelUrl], urlsFile := none,
    corrnr := none, user := some ("U"), pw := some ("P") }

/-- C1, counterexample: with mode `writeback` and no `--corrnr`, the run
does abort with the missing-transport `SystemExit`, but only *after* the
protection-token fetch and after the first item's object fetch — the trace
contains both network calls, contradicting "before any network call is
made for any item". -/
theorem c1_counterexample :
    (mainRun exArgsWbNoCorr wOk).exit = RunExit.abort corrnrAbortMsg ∧
    (mainRun exArgsWbNoCorr wOk).events = [Ev.csrfFetch exUrl, Ev.get exUrl] := by
  decide

/-- C1 (amended): a writeback-capable run with `--corrnr` absent never
records a successful item; once it reaches the batch loop (credentials
set, items resolved, token fetch succeeded) it either aborts with the
missing-transport message — at the first item that passes fetch and
normalization, hence after the token fetch, which is always in the trace —
or, when every item fails before reaching the writeback step, ends
normally with every item counted as failed.  Per-item errors themselves
never cause the abort. -/
theorem c1_corrnr_missing_amended (a : Args) (w : World) (items : List SourceItem)
    (t : String) (hm : a.mode ≠ Mode.test) (hcorr : a.corrnr = none)
    (hu : pyTruthy a.user = true) (hp : pyTruthy a.pw = true)
    (hb : build_source_items (rstripSlash a.base) a.urls a.urlsFile = Except.ok items)
    (hne : items ≠ []) (hcs : w.csrf = Except.ok t) :
    (mainRun a w).okCount = 0 ∧
    ((mainRun a w).exit = RunExit.abort corrnrAbortMsg ∨
      ((mainRun a w).exit = RunExit.normal ∧ (mainRun a w).failCount = items.length)) ∧
    (∃ u, (mainRun a w).events = Ev.csrfFetch u :: ((mainRun a w).events).tail) := by
  cases items with
  | nil => exact absurd rfl hne
  | cons it0 restI =>
    rw [mainRun_wb_eq a w it0 restI t hu hp hb hm hcs, hcorr]
    have hr := runItems_corrnr_none a.mode (some t) w (it0 :: restI) hm
    refine ⟨?_, ?_, ⟨it0.url, ?_⟩⟩
    · simpa [finishRun] using hr.1
    · rcases hr.2 with h | ⟨h1, h2⟩
      · left
        simp [finishRun, exitOf, h]
      · right
        simp only [List.length_cons] at h2
        simp [finishRun, exitOf, h1, h2]
    · simp [finishRun]

/-- Witness for `c1_corrnr_missing_amended` at a concrete input. -/
theorem c1_corrnr_missing_amended_witness :
    (mainRun exArgsWbNoCorr wOk).okCount = 0 ∧
    ((mainRun exArgsWbNoCorr wOk).exit = RunExit.abort corrnrAbortMsg ∨
      ((mainRun exArgsWbNoCorr wOk).exit = RunExit.normal ∧
        (mainRun exArgsWbNoCorr wOk).failCount = [exItem].length)) := by
  have h := c1_corrnr_missing_amended exArgsWbNoCorr wOk [exItem] ("TOK")
    (by decide) rfl (by decide) (by decide) (by decide) (by decide) rfl
  exact ⟨h.1, h.2.1⟩

/-! ## Claim C3: per-item errors are contained at the item boundary -/

/-- The 404 message of the failing-fetch scenario (it contains no lock
pattern). -/
def msg404 : String :=
  ("404 Client Error: Not Found for url: ") ++ exUrl

/-- A world whose object fetch fails with HTTP 404. -/
def w404 : World :=
  { csrf := .ok ("TOK")
    fetchResp := fun _ => .error msg404
    cleanResp := fun _ => .ok ("CLEANED")
    putResp := fun _ => .ok ()
    actResp := fun _ => .ok () }

/-- C3: once a run reaches the batch loop with a truthy (non-empty)
transport number present — the source's check is `if not args.corrnr:`, a
truthiness test — or in test mode, where none is needed, per-item
exceptions are contained:
the run exits normally, every item is counted exactly once as ok or fail,
and the structured failure log has exactly one entry per failed item.  In
particular the 404-fetch scenario on the single item `Z_TEST1` ends with
ok=0, fail=1 and the single structured entry labelled `Z_TEST1` with a
null `lock_corrnr`. -/
theorem c3_item_failure_contained (a : Args) (w : World) (items : List SourceItem)
    (hu : pyTruthy a.user = true) (hp : pyTruthy a.pw = true)
    (hb : build_source_items (rstripSlash a.base) a.urls a.urlsFile = Except.ok items)
    (hne : items ≠ [])
    (hcs : a.mode = Mode.test ∨ ∃ t, w.csrf = Except.ok t)
    (hcorr : pyTruthy a.corrnr = true ∨ a.mode = Mode.test) :
    ((mainRun a w).exit = RunExit.normal ∧
     (mainRun a w).okCount + (mainRun a w).failCount = items.length ∧
     (mainRun a w).failures.length = (mainRun a w).failCount) ∧
    mainRun exArgsTest w404 =
      ⟨[Ev.get exUrl], [], [⟨("Z_TEST1"), exUrl, msg404, none⟩],
       failTxtBlock exItem msg404, 0, 1, RunExit.normal⟩ := by
  refine ⟨?_, by decide⟩
  cases items with
  | nil => exact absurd rfl hne
  | cons it0 restI =>
    by_cases hmode : a.mode = Mode.test
    · rw [mainRun_test_eq a w it0 restI hu hp hb hmode]
      have hr := runItems_counts Mode.test a.corrnr none w (it0 :: restI) (Or.inr rfl)
      refine ⟨?_, ?_, ?_⟩
      · simp [finishRun, exitOf, hr.1]
      · simpa [finishRun] using hr.2.1
      · simpa [finishRun] using hr.2.2
    · have hco : pyTruthy a.corrnr = true := by
        rcases hcorr with h | h
        · exact h
        · exact absurd h hmode
      rcases hcs with hcs | ⟨t, hcs⟩
      · exact absurd hcs hmode
      · rw [mainRun_wb_eq a w it0 restI t hu hp hb hmode hcs]
        have hr := runItems_counts a.mode a.corrnr (some t) w (it0 :: restI) (Or.inl hco)
        refine ⟨?_, ?_, ?_⟩
        · simp [finishRun, exitOf, hr.1]
        · simpa [finishRun] using hr.2.1
        · simpa [finishRun] using hr.2.2

/-- Witness for `c3_item_failure_contained` at a concrete input. -/
theorem c3_item_failure_contained_witness :
    (mainRun exArgsTest w404).exit = RunExit.normal ∧
    (mainRun exArgsTest w404).okCount + (mainRun exArgsTest w404).failCount = 1 := by
  have h := c3_item_failure_contained exArgsTest w404 [exItem]
    (by decide) (by decide) (by decide) (by decide) (Or.inl rfl) (Or.inr rfl)
  exact ⟨h.1.1, h.1.2.1⟩

/-! ## Claims C4, C5, C10: the write/activate requests of a run -/

/-- A full writeback run on the single scenario item. -/
def exArgsWb : Args :=
  { base := exBase, mode := .writeback, urls := [exRelUrl], urlsFile := none,
    corrnr := some ("DEVK900123"), user := some ("U"), pw := some ("P") }

example :
    (mainRun { exArgsWb with corrnr := some ("") } wOk).exit =
      RunExit.abort corrnrAbortMsg := by decide

/-- The conditional-PUT URL of the scenario item. -/
def exPutUrl : String :=
  ("https://host:1234/sap/bc/adt/programs/programs/Z_TEST1/source/main?corrNr=DEVK900123")

/-- The central-service activation URL of the scenario item. -/
def exActUrl : String :=
  ("https://host:1234/sap/bc/adt/activation?method=activate&corrNr=DEVK900123")

/-- Like `wOk`, but the fetch reports an empty-string ETag header. -/
def wEmptyEtag : World :=
  { csrf := .ok ("TOK")
    fetchResp := fun _ => .ok (("SRC"), some (""))
    cleanResp := fun _ => .ok ("CLEANED")
    putResp := fun _ => .ok ()
    actResp := fun _ => .ok () }

/-- C4, counterexample: when the fetch returns an *empty* version tag, the
conditional PUT is still sent but carries the wildcard, not that returned
tag — Python truthiness (`etag if etag else "*"`) treats the empty string
like `None`. -/
theorem c4_counterexample :
    wEmptyEtag.fetchResp exUrl = Except.ok (("SRC"), some ("")) ∧
    Ev.put exPutUrl ("TOK") ("*") ∈ (mainRun exArgsWb wEmptyEtag).events ∧
    ¬ (Ev.put exPutUrl ("TOK") ("") ∈ (mainRun exArgsWb wEmptyEtag).events) := by
  decide

/-- C4 (amended): every conditional PUT of a run belongs to an item of that
run and carries as `If-Match` exactly the non-empty version tag returned by
that item's own preceding fetch, and the wildcard `*` when the fetch
returned no tag or an empty one; in both fallback cases the write is still
sent.  The PUT URL is the item URL with the `corrNr` parameter added. -/
theorem c4_if_match_amended :
    (∀ (a : Args) (w : World) (url t im : String),
      Ev.put url t im ∈ (mainRun a w).events →
      ∃ it corr src etag,
        it ∈ itemsOfArgs a ∧ a.corrnr = some corr ∧
        w.fetchResp it.url = Except.ok (src, etag) ∧
        im = ifMatchOf etag ∧
        url = add_query_param it.url ("corrNr") corr) ∧
    (∀ s : String, s.isEmpty = false → ifMatchOf (some s) = s) ∧
    ifMatchOf none = ("*") ∧ ifMatchOf (some ("")) = ("*") := by
  refine ⟨?_, ?_, rfl, rfl⟩
  · intro a w url t im hmem
    rcases mainRun_events_cases a w with h0 | ⟨hm, hev⟩ | ⟨hm, u, hcase⟩
    · rw [h0] at hmem
      simp at hmem
    · rw [hev] at hmem
      obtain ⟨it, hit, hmem'⟩ := runItems_mem _ _ _ _ _ _ hmem
      obtain ⟨corr, src, etag, hcorr, htok, hfetch, him, hurl⟩ :=
        processItem_put_mem _ _ _ _ _ _ _ _ hmem'
      exact ⟨it, corr, src, etag, hit, hcorr, hfetch, him, hurl⟩
    · rcases hcase with hev | ⟨t0, hcs, hev⟩
      · rw [hev] at hmem
        simp at hmem
      · rw [hev] at hmem
        rcases List.mem_cons.1 hmem with hput | hmem'
        · cases hput
        · obtain ⟨it, hit, hmem''⟩ := runItems_mem _ _ _ _ _ _ hmem'
          obtain ⟨corr, src, etag, hcorr, htok, hfetch, him, hurl⟩ :=
            processItem_put_mem _ _ _ _ _ _ _ _ hmem''
          exact ⟨it, corr, src, etag, hit, hcorr, hfetch, him, hurl⟩
  · intro s hs
    simp [ifMatchOf, hs]

/-- Witness for `c4_if_match_amended` at a concrete input. -/
theorem c4_if_match_amended_witness :
    ∃ it corr src etag,
      it ∈ itemsOfArgs exArgsWb ∧ exArgsWb.corrnr = some corr ∧
      wOk.fetchResp it.url = Except.ok (src, etag) ∧
      ("*") = ifMatchOf etag ∧
      exPutUrl = add_query_param it.url ("corrNr") corr :=
  c4_if_match_amended.1 exArgsWb wOk exPutUrl ("TOK") ("*") (by decide)

/-- The loop itself never fetches the protection token. -/
theorem runItems_filter_csrf (mode : Mode) (corrnr tok : Option String) (w : World)
    (items : List SourceItem) :
    (runItems mode corrnr tok w items).events.filter (fun e => isCsrfEv e) = [] := by
  rw [List.filter_eq_nil_iff]
  intro e he
  obtain ⟨it, _, he'⟩ := runItems_mem _ _ _ _ _ _ he
  simp [(processItem_evs_mem _ _ _ _ _ _ he').1]

/-- C5: the protection token is fetched at most once per run (the filtered
trace holds at most one token fetch), never in local-save mode — which also
issues no write/activate call at all — and every write/activate call of the
run carries unchanged the one token value the fetch returned, and occurs
after that fetch, which is the first event of the trace. -/
theorem c5_token_lifecycle (a : Args) (w : World) :
    ((mainRun a w).events.filter (fun e => isCsrfEv e) = [] ∨
      ∃ u, (mainRun a w).events.filter (fun e => isCsrfEv e) = [Ev.csrfFetch u]) ∧
    (a.mode = Mode.test →
      (mainRun a w).events.filter (fun e => isCsrfEv e) = [] ∧
      (mainRun a w).events.filter (fun e => isWriteEv e) = []) ∧
    (∀ e ∈ (mainRun a w).events, isWriteEv e = true →
      ∃ t u rest, w.csrf = Except.ok t ∧ evToken e = some t ∧
        (mainRun a w).events = Ev.csrfFetch u :: rest ∧ e ∈ rest) := by
  rcases mainRun_events_cases a w with h0 | ⟨hm, hev⟩ | ⟨hm, u, hcase⟩
  · refine ⟨Or.inl (by rw [h0]; rfl), fun _ => ⟨by rw [h0]; rfl, by rw [h0]; rfl⟩, ?_⟩
    intro e he
    rw [h0] at he
    simp at he
  · have hwr : (mainRun a w).events.filter (fun e => isWriteEv e) = [] := by
      rw [hev, List.filter_eq_nil_iff]
      intro e he
      obtain ⟨it, _, he'⟩ := runItems_mem _ _ _ _ _ _ he
      intro hw
      obtain ⟨t', _, _, hmt⟩ := (processItem_evs_mem _ _ _ _ _ _ he').2 hw
      exact hmt rfl
    refine ⟨Or.inl (by rw [hev]; exact runItems_filter_csrf _ _ _ _ _), fun _ => ⟨?_, hwr⟩, ?_⟩
    · rw [hev]
      exact runItems_filter_csrf _ _ _ _ _
    · intro e he hw
      rw [hev] at he
      obtain ⟨it, _, he'⟩ := runItems_mem _ _ _ _ _ _ he
      obtain ⟨t', _, _, hmt⟩ := (processItem_evs_mem _ _ _ _ _ _ he').2 hw
      exact absurd rfl hmt
  · rcases hcase with hev | ⟨t0, hcs, hev⟩
    · refine ⟨Or.inr ⟨u, by rw [hev]; rfl⟩, fun ht => absurd ht hm, ?_⟩
      intro e he hw
      rw [hev] at he
      simp at he
      rw [he] at hw
      cases hw
    · refine ⟨Or.inr ⟨u, ?_⟩, fun ht => absurd ht hm, ?_⟩
      · rw [hev]
        simp only [List.filter_cons]
        rw [runItems_filter_csrf]
        rfl
      · intro e he hw
        rw [hev] at he
        rcases List.mem_cons.1 he with rfl | he'
        · cases hw
        · obtain ⟨it, _, he''⟩ := runItems_mem _ _ _ _ _ _ he'
          obtain ⟨t', htok, hevtok, _⟩ := (processItem_evs_mem _ _ _ _ _ _ he'').2 hw
          obtain rfl : t0 = t' := Option.some.inj htok
          exact ⟨t0, u, _, hcs, hevtok, hev, he'⟩

/-- Witness for `c5_token_lifecycle` at a concrete input. -/
theorem c5_token_lifecycle_witness :
    ∃ t u rest, wOk.csrf = Except.ok t ∧
      evToken (Ev.put exPutUrl ("TOK") ("*")) = some t ∧
      (mainRun exArgsWb wOk).events = Ev.csrfFetch u :: rest ∧
      Ev.put exPutUrl ("TOK") ("*") ∈ rest :=
  (c5_token_lifecycle exArgsWb wOk).2.2 (Ev.put exPutUrl ("TOK") ("*"))
    (by decide) (by decide)

/-- C10: every activation request of every run goes through the central
service — it is the `serviceActReq` of one of the run's items, in full
writeback mode, with the XML object-reference body — and on the scenario
input the central-service URL (with `method=activate` and `corrNr` query
parameters) differs from the URL the unused direct-path helper
`adt_activate` would build, which therefore never appears in any trace. -/
theorem c10_activation_via_service_only :
    (∀ (a : Args) (w : World) (url t body : String),
      Ev.activate url t body ∈ (mainRun a w).events →
      a.mode = Mode.writeback ∧
      ∃ it corr relUri,
        it ∈ itemsOfArgs a ∧ a.corrnr = some corr ∧
        serviceActReq it.url corr = Except.ok (url, relUri) ∧
        body = actBody relUri) ∧
    serviceActReq exUrl ("DEVK900123") =
      Except.ok (exActUrl, ("/sap/bc/adt/programs/programs/Z_TEST1")) ∧
    adt_activate_url exUrl ("DEVK900123") =
      ("https://host:1234/sap/bc/adt/programs/programs/Z_TEST1/activation?corrNr=DEVK900123") ∧
    adt_activate_url exUrl ("DEVK900123") ≠ exActUrl := by
  refine ⟨?_, by decide, by decide, by decide⟩
  intro a w url t body hmem
  rcases mainRun_events_cases a w with h0 | ⟨hm, hev⟩ | ⟨hm, u, hcase⟩
  · rw [h0] at hmem
    simp at hmem
  · rw [hev] at hmem
    obtain ⟨it, hit, hmem'⟩ := runItems_mem _ _ _ _ _ _ hmem
    obtain ⟨hwb, _⟩ := processItem_act_mem _ _ _ _ _ _ _ _ hmem'
    cases hwb
  · rcases hcase with hev | ⟨t0, hcs, hev⟩
    · rw [hev] at hmem
      simp at hmem
    · rw [hev] at hmem
      rcases List.mem_cons.1 hmem with hact | hmem'
      · cases hact
      · obtain ⟨it, hit, hmem''⟩ := runItems_mem _ _ _ _ _ _ hmem'
        obtain ⟨hwb, corr, relUri, hcorr, htok, hreq, hbody⟩ :=
          processItem_act_mem _ _ _ _ _ _ _ _ hmem''
        exact ⟨hwb, it, corr, relUri, hit, hcorr, hreq, hbody⟩

/-! ## Claim C8: the lock-transport extraction -/

/-- A successful match of the lock pattern captures exactly 10 characters
of the class `[A-Z0-9]`. -/
theorem lockMatchAt_some (l c : List Char) (h : lockMatchAt l = some c) :
    c.length = 10 ∧ c.all isLockCodeChar = true := by
  simp only [lockMatchAt] at h
  split at h
  · split at h
    · cases h
    · split at h
      · rename_i hguard
        cases h
        rw [Bool.and_eq_true] at hguard
        obtain ⟨h1, h2⟩ := hguard
        refine ⟨?_, h2⟩
        simpa using h1
      · cases h
  · cases h

/-- First-match semantics of `lockSearch`, as `re.search`: it returns `some c` exactly when
the pattern matches at some position with capture `c` and at no earlier
position. -/
theorem lockSearch_some_iff (l c : List Char) :
    lockSearch l = some c ↔
      ∃ i, lockMatchAt (List.drop i l) = some c ∧
        ∀ j < i, lockMatchAt (List.drop j l) = none := by
  constructor
  · intro h
    induction l with
    | nil => cases h
    | cons x r ih =>
      rw [lockSearch] at h
      cases hm : lockMatchAt (x :: r) with
      | some c0 =>
        rw [hm] at h
        cases h
        exact ⟨0, by simpa using hm, fun j hj => absurd hj (Nat.not_lt_zero j)⟩
      | none =>
        rw [hm] at h
        obtain ⟨i, h1, h2⟩ := ih h
        refine ⟨i + 1, by simpa [List.drop_succ_cons] using h1, ?_⟩
        intro j hj
        cases j with
        | zero => simpa using hm
        | succ j' =>
          have := h2 j' (Nat.lt_of_succ_lt_succ hj)
          simpa [List.drop_succ_cons] using this
  · intro ⟨i, h1, h2⟩
    induction l generalizing i with
    | nil =>
      rw [List.drop_nil] at h1
      cases (by decide : lockMatchAt [] = none) ▸ h1
    | cons x r ih =>
      cases i with
      | zero =>
        rw [List.drop_zero] at h1
        rw [lockSearch, h1]
      | succ i' =>
        have hm : lockMatchAt (x :: r) = none := by simpa using h2 0 (Nat.succ_pos i')
        rw [lockSearch, hm]
        exact ih i' (by simpa [List.drop_succ_cons] using h1)
          (fun j hj => by simpa [List.drop_succ_cons] using h2 (j + 1) (Nat.succ_lt_succ hj))

/-- When `lockSearch` finds nothing, the pattern matches at no position. -/
theorem lockSearch_none (l : List Char) (h : lockSearch l = none) :
    ∀ i, lockMatchAt (List.drop i l) = none := by
  induction l with
  | nil =>
    intro i
    rw [List.drop_nil]
    decide
  | cons x r ih =>
    rw [lockSearch] at h
    cases hm : lockMatchAt (x :: r) with
    | some c0 =>
      rw [hm] at h
      cases h
    | none =>
      rw [hm] at h
      intro i
      cases i with
      | zero => simpa using hm
      | succ j => simpa [List.drop_succ_cons] using ih h j

/-- The loop's structured failure entries and its human-readable failure
blocks are generated, in order, from the same (item, message) pairs. -/
theorem runItems_failures_pairs (mode : Mode) (corrnr tok : Option String) (w : World)
    (items : List SourceItem) :
    ∃ pairs : List (SourceItem × String),
      (runItems mode corrnr tok w items).failures =
        pairs.map (fun p => mkFailEntry p.1 p.2) ∧
      (runItems mode corrnr tok w items).txtLog =
        (pairs.map (fun p => failTxtBlock p.1 p.2)).flatten := by
  induction items with
  | nil => exact ⟨[], rfl, rfl⟩
  | cons it rest ih =>
    rcases processItem_out_cases mode corrnr tok w it with hok | ⟨msg, hfail⟩ | ⟨_, _, hab⟩
    · rw [runItems, hok]
      exact ih
    · rw [runItems, hfail]
      obtain ⟨pairs, h1, h2⟩ := ih
      exact ⟨(it, msg) :: pairs, by simp [h1], by simp [h2]⟩
    · rw [runItems, hab]
      exact ⟨[], rfl, rfl⟩

/-- Reduction of `mainRun` when the token fetch fails. -/
theorem mainRun_wbErr_eq (a : Args) (w : World) (it0 : SourceItem) (restI : List SourceItem)
    (msg : String)
    (hu : pyTruthy a.user = true) (hp : pyTruthy a.pw = true)
    (hb : build_source_items (rstripSlash a.base) a.urls a.urlsFile = Except.ok (it0 :: restI))
    (hmode : a.mode ≠ Mode.test) (hcs : w.csrf = Except.error msg) :
    mainRun a w = ⟨[Ev.csrfFetch it0.url], [], [], [], 0, 0, RunExit.abort msg⟩ := by
  unfold mainRun
  rw [if_neg (by simp [hu, hp]), hb]
  cases h : a.mode with
  | test => exact absurd h hmode
  | writeback => rw [hcs]
  | writeback_noact => rw [hcs]

/-- The whole run's structured failure log and human-readable failure log
are generated, in order, from the same (item, message) pairs. -/
theorem mainRun_failures_pairs (a : Args) (w : World) :
    ∃ pairs : List (SourceItem × String),
      (mainRun a w).failures = pairs.map (fun p => mkFailEntry p.1 p.2) ∧
      (mainRun a w).txtLog = (pairs.map (fun p => failTxtBlock p.1 p.2)).flatten := by
  by_cases hcred : (!pyTruthy a.user || !pyTruthy a.pw) = true
  · refine ⟨[], ?_, ?_⟩ <;> (unfold mainRun; rw [if_pos hcred]; rfl)
  · have hup := Bool.eq_false_iff.mpr hcred
    simp at hup
    obtain ⟨hu, hp⟩ := hup
    cases hb : build_source_items (rstripSlash a.base) a.urls a.urlsFile with
    | error m =>
      refine ⟨[], ?_, ?_⟩ <;>
        (unfold mainRun; rw [if_neg hcred, hb]; rfl)
    | ok items =>
      cases items with
      | nil =>
        refine ⟨[], ?_, ?_⟩ <;>
          (unfold mainRun; rw [if_neg hcred, hb]; rfl)
      | cons it0 restI =>
        by_cases hm : a.mode = Mode.test
        · obtain ⟨pairs, h1, h2⟩ :=
            runItems_failures_pairs Mode.test a.corrnr none w (it0 :: restI)
          refine ⟨pairs, ?_, ?_⟩
          · rw [mainRun_test_eq a w it0 restI hu hp hb hm]
            simpa [finishRun] using h1
          · rw [mainRun_test_eq a w it0 restI hu hp hb hm]
            simpa [finishRun] using h2
        · cases hcs : w.csrf with
          | error msg =>
            refine ⟨[], ?_, ?_⟩ <;>
              (rw [mainRun_wbErr_eq a w it0 restI msg hu hp hb hm hcs]; rfl)
          | ok t =>
            obtain ⟨pairs, h1, h2⟩ :=
              runItems_failures_pairs a.mode a.corrnr (some t) w (it0 :: restI)
            refine ⟨pairs, ?_, ?_⟩
            · rw [mainRun_wb_eq a w it0 restI t hu hp hb hm hcs]
              simpa [finishRun] using h1
            · rw [mainRun_wb_eq a w it0 restI t hu hp hb hm hcs]
              simpa [finishRun] using h2

/-- A failure message whose only lock pattern carries `DEVK900123`. -/
def c8msgGood : String :=
  ("PUT failed 403 Forbidden: object is locked in request DEVK900123 by user FOO")

/-- A failure message containing the substring `locked in request DEVK900123`
but with an earlier occurrence of the lock pattern. -/
def c8msgTwo : String :=
  ("locked in request AAAA000000 and also locked in request DEVK900123")

/-- C8, counterexample: the extraction uses the *first* occurrence of the
pattern, so a message that contains the substring
`locked in request DEVK900123` can still yield a different code. -/
theorem c8_counterexample :
    hasSubstr c8msgTwo.toList (("locked in request DEVK900123").toList) = true ∧
    lockCorrnrOf c8msgTwo = some ("AAAA000000") ∧
    lockCorrnrOf c8msgTwo ≠ some ("DEVK900123") := by
  decide

/-- C8 (amended): the Failure Recorder extracts the 10-character
`[A-Z0-9]` code of the *first* occurrence of the pattern
`locked in request\s+([A-Z0-9]{10})` in the error message — in particular
`DEVK900123` whenever the `DEVK900123` occurrence is the first one — and
writes it into the locking-transport field of both the structured log entry
and the human-readable block, which the run derives from the same
(item, message) pairs; when no occurrence exists the structured field is
null and the human-readable block carries no `LOCKED_IN` line. -/
theorem c8_lock_extraction_amended :
    (∀ l c : List Char,
      lockSearch l = some c ↔
        ∃ i, lockMatchAt (List.drop i l) = some c ∧
          ∀ j < i, lockMatchAt (List.drop j l) = none) ∧
    (∀ l : List Char, lockSearch l = none → ∀ i, lockMatchAt (List.drop i l) = none) ∧
    (∀ (a : Args) (w : World),
      ∃ pairs : List (SourceItem × String),
        (mainRun a w).failures = pairs.map (fun p => mkFailEntry p.1 p.2) ∧
        (mainRun a w).txtLog = (pairs.map (fun p => failTxtBlock p.1 p.2)).flatten) ∧
    (∀ (it : SourceItem) (msg c : String),
      lockCorrnrOf msg = some c →
        (mkFailEntry it msg).lock_corrnr = some c ∧
        (("LOCKED_IN: ") ++ c) ∈ failTxtBlock it msg) ∧
    (∀ (it : SourceItem) (msg : String),
      lockCorrnrOf msg = none →
        (mkFailEntry it msg).lock_corrnr = none ∧
        failTxtBlock it msg =
          [("---"), ("LABEL: ") ++ it.label, ("URL: ") ++ it.url, ("ERROR:"), msg]) ∧
    lockCorrnrOf c8msgGood = some ("DEVK900123") := by
  refine ⟨lockSearch_some_iff, lockSearch_none, mainRun_failures_pairs, ?_, ?_, by decide⟩
  · intro it msg c hc
    refine ⟨by simp [mkFailEntry, hc], ?_⟩
    obtain ⟨code, hcode, rfl⟩ : ∃ code, lockSearch msg.toList = some code ∧ String.mk code = c := by
      unfold lockCorrnrOf at hc
      cases hsearch : lockSearch msg.toList with
      | none => rw [hsearch] at hc; cases hc
      | some code =>
        rw [hsearch] at hc
        cases hc
        exact ⟨code, rfl, rfl⟩
    obtain ⟨i, hi, -⟩ := (lockSearch_some_iff msg.toList code).1 hcode
    have hlen : code.length = 10 := (lockMatchAt_some _ _ hi).1
    have hne : String.mk code ≠ ("") := by
      intro hx
      have : code = [] := congrArg String.toList hx
      rw [this] at hlen
      cases hlen
    have hE : (String.mk code).isEmpty = false :=
      Bool.eq_false_iff.mpr (fun h => hne ((String.isEmpty_iff _).mp h))
    unfold failTxtBlock lockCorrnrOf
    rw [hcode]
    simp [hE]
  · intro it msg hn
    refine ⟨by simp [mkFailEntry, hn], ?_⟩
    unfold failTxtBlock
    rw [hn]
    rfl

/-- Witness for `c8_lock_extraction_amended` at a concrete input. -/
theorem c8_lock_extraction_amended_witness :
    (mkFailEntry exItem c8msgGood).lock_corrnr = some ("DEVK900123") ∧
    (("LOCKED_IN: ") ++ ("DEVK900123")) ∈ failTxtBlock exItem c8msgGood :=
  c8_lock_extraction_amended.2.2.2.1 exItem c8msgGood ("DEVK900123") (by decide)

/-- Witness for `c10_activation_via_service_only` at a concrete input. -/
theorem c10_activation_via_service_only_witness :
    exArgsWb.mode = Mode.writeback ∧
    ∃ it corr relUri,
      it ∈ itemsOfArgs exArgsWb ∧ exArgsWb.corrnr = some corr ∧
      serviceActReq it.url corr = Except.ok (exActUrl, relUri) ∧
      actBody ("/sap/bc/adt/programs/programs/Z_TEST1") = actBody relUri :=
  c10_activation_via_service_only.1 exArgsWb wOk exActUrl ("TOK")
    (actBody ("/sap/bc/adt/programs/programs/Z_TEST1")) (by decide)

/-! ## Claim C9: the byte decoders

Bytes are modelled as `Nat` (< 256 in reality; larger values fall into the
invalid-byte branches), decoded text as the list of its Unicode code
points.  `utf8Go` implements UTF-8 decoding as Python's codec does: strict
mode raises (`.error`) on the first ill-formed sequence; replace mode
substitutes one U+FFFD per maximal subpart of an ill-formed sequence and
continues.  The fuel argument only bounds the recursion; since every step
consumes at least one byte and exactly one unit of fuel, the out-of-fuel
branch is unreachable whenever the fuel starts at the list length, as it
does in the exported decoders below. -/

/-- A UTF-8 continuation byte. -/
def contB (b : Nat) : Bool := decide (0x80 ≤ b) && decide (b ≤ 0xBF)

def utf8Go (replace : Bool) : Nat → List Nat → Except Unit (List Nat)
  | _, [] => .ok []
  | 0, _ :: _ => .ok []
  | fuel + 1, b0 :: r =>
    if b0 < 0x80 then
      (utf8Go replace fuel r).map (fun t => b0 :: t)
    else if 0xC2 ≤ b0 ∧ b0 ≤ 0xDF then
      match r with
      | b1 :: r2 =>
        if contB b1 then
          (utf8Go replace fuel r2).map (fun t => ((b0 - 0xC0) * 0x40 + (b1 - 0x80)) :: t)
        else if replace then (utf8Go replace fuel r).map (fun t => 0xFFFD :: t)
        else .error ()
      | [] =>
        if replace then (utf8Go replace fuel []).map (fun t => 0xFFFD :: t) else .error ()
    else if 0xE0 ≤ b0 ∧ b0 ≤ 0xEF then
      -- second-byte range depends on the lead byte (surrogates and
      -- overlong forms excluded as in the real codec)
      let lo1 := if b0 = 0xE0 then 0xA0 else 0x80
      let hi1 := if b0 = 0xED then 0x9F else 0xBF
      match r with
      | b1 :: r2 =>
        if decide (lo1 ≤ b1) && decide (b1 ≤ hi1) then
          match r2 with
          | b2 :: r3 =>
            if contB b2 then
              (utf8Go replace fuel r3).map
                (fun t => ((b0 - 0xE0) * 0x1000 + (b1 - 0x80) * 0x40 + (b2 - 0x80)) :: t)
            else if replace then (utf8Go replace fuel r2).map (fun t => 0xFFFD :: t)
            else .error ()
          | [] =>
            if replace then (utf8Go replace fuel []).map (fun t => 0xFFFD :: t) else .error ()
        else if replace then (utf8Go replace fuel r).map (fun t => 0xFFFD :: t)
        else .error ()
      | [] =>
        if replace then (utf8Go replace fuel []).map (fun t => 0xFFFD :: t) else .error ()
    else if 0xF0 ≤ b0 ∧ b0 ≤ 0xF4 then
      let lo1 := if b0 = 0xF0 then 0x90 else 0x80
      let hi1 := if b0 = 0xF4 then 0x8F else 0xBF
      match r with
      | b1 :: r2 =>
        if decide (lo1 ≤ b1) && decide (b1 ≤ hi1) then
          match r2 with
          | b2 :: r3 =>
            if contB b2 then
              match r3 with
              | b3 :: r4 =>
                if contB b3 then
                  (utf8Go replace fuel r4).map (fun t =>
                    ((b0 - 0xF0) * 0x40000 + (b1 - 0x80) * 0x1000 +
                      (b2 - 0x80) * 0x40 + (b3 - 0x80)) :: t)
                else if replace then (utf8Go replace fuel r3).map (fun t => 0xFFFD :: t)
                else .error ()
              | [] =>
                if replace then (utf8Go replace fuel []).map (fun t => 0xFFFD :: t)
                else .error ()
            else if replace then (utf8Go replace fuel r2).map (fun t => 0xFFFD :: t)
            else .error ()
          | [] =>
            if replace then (utf8Go replace fuel []).map (fun t => 0xFFFD :: t) else .error ()
        else if replace then (utf8Go replace fuel r).map (fun t => 0xFFFD :: t)
        else .error ()
      | [] =>
        if replace then (utf8Go replace fuel []).map (fun t => 0xFFFD :: t) else .error ()
    else
      -- invalid lead byte: 0x80-0xC1, 0xF5-..
      if replace then (utf8Go replace fuel r).map (fun t => 0xFFFD :: t) else .error ()

/-- The cp1252 byte-to-codepoint table: ASCII and 0xA0-0xFF map to
themselves, 0x80-0x9F to the Windows-1252 specials; 0x81, 0x8D, 0x8F, 0x90
and 0x9D are undefined. -/
def cp1252Map (b : Nat) : Option Nat :=
  if b < 0x80 then some b
  else if 0xA0 ≤ b ∧ b ≤ 0xFF then some b
  else
    match b with
    | 0x80 => some 0x20AC
    | 0x82 => some 0x201A
    | 0x83 => some 0x0192
    | 0x84 => some 0x201E
    | 0x85 => some 0x2026
    | 0x86 => some 0x2020
    | 0x87 => some 0x2021
    | 0x88 => some 0x02C6
    | 0x89 => some 0x2030
    | 0x8A => some 0x0160
    | 0x8B => some 0x2039
    | 0x8C => some 0x0152
    | 0x8E => some 0x017D
    | 0x91 => some 0x2018
    | 0x92 => some 0x2019
    | 0x93 => some 0x201C
    | 0x94 => some 0x201D
    | 0x95 => some 0x2022
    | 0x96 => some 0x2013
    | 0x97 => some 0x2014
    | 0x98 => some 0x02DC
    | 0x99 => some 0x2122
    | 0x9A => some 0x0161
    | 0x9B => some 0x203A
    | 0x9C => some 0x0153
    | 0x9E => some 0x017E
    | 0x9F => some 0x0178
    | _ => none

/-- cp1252 decoding: an undefined byte raises in strict mode and becomes
U+FFFD with `errors="replace"`. -/
def cp1252Decode (replace : Bool) : List Nat → Except Unit (List Nat)
  | [] => .ok []
  | b :: r =>
    match cp1252Map b with
    | some cp => (cp1252Decode replace r).map (fun t => cp :: t)
    | none =>
      if replace then (cp1252Decode replace r).map (fun t => 0xFFFD :: t) else .error ()

/-- The `utf-8-sig` preprocessing: drop a leading byte-order mark. -/
def bomStripped (l : List Nat) : List Nat :=
  if l.take 3 = [0xEF, 0xBB, 0xBF] then l.drop 3 else l

/-- Strict UTF-8 decoding (`bytes.decode("utf-8")`). -/
def utf8DecodeStrict (l : List Nat) : Except Unit (List Nat) :=
  utf8Go false l.length l

/-- The fetch-body decoder (source lines 98-101): UTF-8, falling back to
UTF-8-with-BOM with replacement. -/
def fetchDecode (l : List Nat) : Except Unit (List Nat) :=
  match utf8DecodeStrict l with
  | .ok s => .ok s
  | .error _ => utf8Go true (bomStripped l).length (bomStripped l)

/-- Model of `decode_best` (source lines 62-66): UTF-8, falling back to cp1252 with
replacement. -/
def decode_best (l : List Nat) : Except Unit (List Nat) :=
  match utf8DecodeStrict l with
  | .ok s => .ok s
  | .error _ => cp1252Decode true l

set_option maxHeartbeats 2000000 in
/-- UTF-8 decoding with replacement never raises. -/
theorem utf8Go_replace_ok (fuel : Nat) : ∀ l : List Nat, ∃ s, utf8Go true fuel l = Except.ok s := by
  induction fuel with
  | zero =>
    intro l
    cases l with
    | nil => exact ⟨[], rfl⟩
    | cons b r => exact ⟨[], rfl⟩
  | succ n ih =>
    intro l
    have hmap : ∀ (X : List Nat) (f : List Nat → List Nat),
        ∃ s, (utf8Go true n X).map f = Except.ok s := by
      intro X f
      obtain ⟨s, hs⟩ := ih X
      exact ⟨f s, by rw [hs]; rfl⟩
    cases l with
    | nil => exact ⟨[], rfl⟩
    | cons b0 r =>
      simp only [utf8Go]
      repeat' split
      all_goals first
        | exact hmap _ _
        | (simp_all <;> first | exact hmap _ _ | exact ⟨[0xFFFD], rfl⟩)

/-- cp1252 decoding with replacement never raises. -/
theorem cp1252_replace_ok : ∀ l : List Nat, ∃ s, cp1252Decode true l = Except.ok s := by
  intro l
  induction l with
  | nil => exact ⟨[], rfl⟩
  | cons b r ih =>
    obtain ⟨s, hs⟩ := ih
    rw [cp1252Decode]
    cases hm : cp1252Map b with
    | some cp => exact ⟨cp :: s, by rw [hs]; rfl⟩
    | none => exact ⟨0xFFFD :: s, by rw [if_pos rfl, hs]; rfl⟩

/-- C9: both decoders are total — for every byte sequence the fetch decoder
and the tool-output decoder return `.ok` (the fallback is never an error) —
and when the bytes are valid UTF-8 both return exactly the strict UTF-8
decoding.  Concretely, the invalid byte 0xFF makes the fetch decoder
replace (U+FFFD) and the tool decoder fall back to cp1252 (0xFF), and a
UTF-8 BOM is stripped on the fetch fallback path. -/
theorem c9_decoders_never_raise :
    (∀ l : List Nat, ∃ s, fetchDecode l = Except.ok s) ∧
    (∀ l : List Nat, ∃ s, decode_best l = Except.ok s) ∧
    (∀ (l s : List Nat), utf8DecodeStrict l = Except.ok s →
      fetchDecode l = Except.ok s ∧ decode_best l = Except.ok s) ∧
    fetchDecode [0x41, 0xFF] = Except.ok [0x41, 0xFFFD] ∧
    decode_best [0x41, 0xFF] = Except.ok [0x41, 0xFF] ∧
    fetchDecode [0xEF, 0xBB, 0xBF, 0x41, 0xFF] = Except.ok [0x41, 0xFFFD] := by
  refine ⟨?_, ?_, ?_, by decide, by decide, by decide⟩
  · intro l
    unfold fetchDecode
    cases hs : utf8DecodeStrict l with
    | ok s => exact ⟨s, rfl⟩
    | error e => exact utf8Go_replace_ok _ _
  · intro l
    unfold decode_best
    cases hs : utf8DecodeStrict l with
    | ok s => exact ⟨s, rfl⟩
    | error e => exact cp1252_replace_ok l
  · intro l s hs
    unfold fetchDecode decode_best
    rw [hs]
    exact ⟨rfl, rfl⟩

/-- Witness for `c9_decoders_never_raise` at a concrete input. -/
theorem c9_decoders_never_raise_witness :
    fetchDecode [0x41] = Except.ok [0x41] ∧ decode_best [0x41] = Except.ok [0x41] :=
  c9_decoders_never_raise.2.2.1 [0x41] [0x41] (by decide)

end ScriptWriteback
